import Mathlib

/-! The `log.h` test header of BindingGenerator.

`BindingGenerator.Tests/headers/overrideParameterTest/log.h` is a C header with two
declarations: the enumeration `android_LogPriority` and the prototype of
`__android_log_print`.  The header is embedded as the abstract syntax of these two
declarations, written down in source order, together with the C rule that gives
every enumerator its value.  All properties below are computed from that syntax.
-/

namespace LogHeader

/-! ## Abstract syntax of the declarations -/

/-- One enumerator of a C `enum`: its identifier and the optional `= constant`
initialiser written after it. -/
structure Enumerator where
  name : String
  init : Option Int
  deriving DecidableEq, Repr

/-- A declaration `typedef enum tag { ... } typedefName;`. -/
structure EnumDecl where
  tag : String
  enumerators : List Enumerator
  typedefName : Option String
  deriving DecidableEq, Repr

/-- The C types that occur in the header. -/
inductive CType where
  | int : CType
  | char : CType
  | const : CType → CType
  | pointer : CType → CType
  deriving DecidableEq, Repr

/-- A named parameter of a function prototype. -/
structure Param where
  type : CType
  name : String
  deriving DecidableEq, Repr

/-- The attribute `__attribute__((__format__(archetype, stringIndex, firstToCheck)))`.
Both indices count parameters from one. -/
structure FormatAttr where
  archetype : String
  stringIndex : Nat
  firstToCheck : Nat
  deriving DecidableEq, Repr

/-- A function declarator: return type, name, fixed parameters, whether the
parameter list ends in `...`, the attributes that follow, and the body when the
declaration is a definition (`none` when it ends in `;`). -/
structure FunDecl where
  returnType : CType
  name : String
  params : List Param
  variadic : Bool
  attributes : List FormatAttr
  body : Option String
  deriving DecidableEq, Repr

/-- A header: its enumerations and its functions, each in source order. -/
structure Header where
  enums : List EnumDecl
  functions : List FunDecl
  deriving DecidableEq, Repr

/-! ## The header -/

/-- Lines 1-20 of `log.h`. -/
def android_LogPriority : EnumDecl where
  tag := "android_LogPriority"
  enumerators := [
    ⟨"ANDROID_LOG_UNKNOWN", some 0⟩,
    ⟨"ANDROID_LOG_DEFAULT", none⟩,
    ⟨"ANDROID_LOG_VERBOSE", none⟩,
    ⟨"ANDROID_LOG_DEBUG", none⟩,
    ⟨"ANDROID_LOG_INFO", none⟩,
    ⟨"ANDROID_LOG_WARN", none⟩,
    ⟨"ANDROID_LOG_ERROR", none⟩,
    ⟨"ANDROID_LOG_FATAL", none⟩,
    ⟨"ANDROID_LOG_SILENT", none⟩]
  typedefName := some "android_LogPriority"

/-- The type `const char*`. -/
def constCharPtr : CType := .pointer (.const .char)

/-- Lines 22-23 of `log.h`. -/
def __android_log_print : FunDecl where
  returnType := .int
  name := "__android_log_print"
  params := [⟨.int, "prio"⟩, ⟨constCharPtr, "tag"⟩, ⟨constCharPtr, "fmt"⟩]
  variadic := true
  attributes := [⟨"printf", 3, 4⟩]
  body := none

/-- The whole file `log.h`. -/
def log_h : Header where
  enums := [android_LogPriority]
  functions := [__android_log_print]

/-! ## Enumerator numbering of C -/

/-- Values of a list of enumerators when an enumerator without initialiser would
get `next`: an initialiser gives the value, and the following enumerator
continues from that value plus one. -/
def enumValuesFrom (next : Int) : List Enumerator → List (String × Int)
  | [] => []
  | e :: es =>
    let v := e.init.getD next
    (e.name, v) :: enumValuesFrom (v + 1) es

/-- Values of the enumerators of an `enum`; the first one defaults to `0`. -/
def enumValues (d : EnumDecl) : List (String × Int) :=
  enumValuesFrom 0 d.enumerators

/-- Names of the constants of an `enum`, in declaration order. -/
def enumNames (d : EnumDecl) : List String :=
  d.enumerators.map Enumerator.name

/-- Encoding: the value of the constant called `name`. -/
def valueOf (d : EnumDecl) (name : String) : Option Int :=
  (enumValues d).lookup name

/-- Decoding: the first constant whose value is `v`. -/
def constantOf (d : EnumDecl) (v : Int) : Option String :=
  ((enumValues d).find? (fun p => p.2 == v)).map Prod.fst

/-- The parameter that a one-based parameter index designates. -/
def paramAt (f : FunDecl) (oneBased : Nat) : Option Param :=
  if oneBased = 0 then none else f.params[oneBased - 1]?

/-! ## Evaluation of the numbering on the header -/

theorem enumValues_android_LogPriority :
    enumValues android_LogPriority =
      [("ANDROID_LOG_UNKNOWN", 0), ("ANDROID_LOG_DEFAULT", 1), ("ANDROID_LOG_VERBOSE", 2),
       ("ANDROID_LOG_DEBUG", 3), ("ANDROID_LOG_INFO", 4), ("ANDROID_LOG_WARN", 5),
       ("ANDROID_LOG_ERROR", 6), ("ANDROID_LOG_FATAL", 7), ("ANDROID_LOG_SILENT", 8)] := by
  rfl

/-- An index that hits the value table is below nine. -/
theorem lt_nine_of_getElem? (i : Nat) (c : String × Int)
    (h : (enumValues android_LogPriority)[i]? = some c) : i < 9 := by
  by_contra hi
  rw [enumValues_android_LogPriority, List.getElem?_eq_none (by simp; omega)] at h
  cases h

/-- The rule of C for an enumerator without initialiser: its value is the value of
the enumerator before it plus one, whatever the enumeration is. -/
theorem enumValuesFrom_succ_of_init_none (es : List Enumerator) (next : Int) (i : Nat)
    (e : Enumerator) (a b : String × Int)
    (he : es[i + 1]? = some e) (hinit : e.init = none)
    (ha : (enumValuesFrom next es)[i]? = some a)
    (hb : (enumValuesFrom next es)[i + 1]? = some b) : b.2 = a.2 + 1 := by
  induction es generalizing next i with
  | nil => simp at he
  | cons e₀ es ih =>
    cases i with
    | zero =>
      cases es with
      | nil => simp at he
      | cons e₁ es =>
        simp only [List.getElem?_cons_succ, List.getElem?_cons_zero, Option.some.injEq] at he
        subst he
        simp only [enumValuesFrom, List.getElem?_cons_succ, List.getElem?_cons_zero,
          Option.some.injEq] at ha hb
        subst ha hb
        simp [hinit]
    | succ i =>
      simp only [List.getElem?_cons_succ] at he
      simp only [enumValuesFrom, List.getElem?_cons_succ] at ha hb
      exact ih _ i he ha hb

/-! ## The enumeration `android_LogPriority` -/

/-- C1: the enumeration `android_LogPriority` declares exactly nine named constants,
and in declaration order they are UNKNOWN, DEFAULT, VERBOSE, DEBUG, INFO, WARN,
ERROR, FATAL, SILENT (each prefixed `ANDROID_LOG_`). -/
theorem android_LogPriority_constants :
    (enumNames android_LogPriority).length = 9 ∧
    enumNames android_LogPriority =
      ["ANDROID_LOG_UNKNOWN", "ANDROID_LOG_DEFAULT", "ANDROID_LOG_VERBOSE",
       "ANDROID_LOG_DEBUG", "ANDROID_LOG_INFO", "ANDROID_LOG_WARN",
       "ANDROID_LOG_ERROR", "ANDROID_LOG_FATAL", "ANDROID_LOG_SILENT"] := by
  constructor <;> rfl

/-- C2: under the numbering of C, `ANDROID_LOG_UNKNOWN` has value 0 and
`ANDROID_LOG_SILENT` has value 8, the constants between them have the values 1 to 7,
and the value of every constant is its zero-based position in the declaration. -/
theorem android_LogPriority_value_eq_position :
    valueOf android_LogPriority "ANDROID_LOG_UNKNOWN" = some 0 ∧
    valueOf android_LogPriority "ANDROID_LOG_SILENT" = some 8 ∧
    valueOf android_LogPriority "ANDROID_LOG_DEFAULT" = some 1 ∧
    valueOf android_LogPriority "ANDROID_LOG_VERBOSE" = some 2 ∧
    valueOf android_LogPriority "ANDROID_LOG_DEBUG" = some 3 ∧
    valueOf android_LogPriority "ANDROID_LOG_INFO" = some 4 ∧
    valueOf android_LogPriority "ANDROID_LOG_WARN" = some 5 ∧
    valueOf android_LogPriority "ANDROID_LOG_ERROR" = some 6 ∧
    valueOf android_LogPriority "ANDROID_LOG_FATAL" = some 7 ∧
    (∀ (i : Nat) (name : String), (enumNames android_LogPriority)[i]? = some name →
      valueOf android_LogPriority name = some (i : Int)) ∧
    (∀ (i : Nat) (c : String × Int), (enumValues android_LogPriority)[i]? = some c →
      (enumNames android_LogPriority)[i]? = some c.1 ∧ c.2 = (i : Int)) := by
  refine ⟨rfl, rfl, rfl, rfl, rfl, rfl, rfl, rfl, rfl, ?_, ?_⟩
  · intro i name h
    have hi : i < 9 := by
      by_contra hi
      rw [List.getElem?_eq_none (by simp [enumNames, android_LogPriority]; omega)] at h
      cases h
    interval_cases i <;>
      simp only [enumNames, android_LogPriority, List.map, List.getElem?_cons_succ,
        List.getElem?_cons_zero, Option.some.injEq] at h <;> subst h <;> rfl
  · intro i c h
    have hi : i < 9 := lt_nine_of_getElem? i c h
    rw [enumValues_android_LogPriority] at h
    interval_cases i <;>
      simp only [List.getElem?_cons_succ, List.getElem?_cons_zero, Option.some.injEq] at h <;>
      subst h <;> exact ⟨rfl, rfl⟩

/-- Instance of C2 at position 4, the constant `ANDROID_LOG_INFO`. -/
theorem android_LogPriority_value_eq_position_witness :
    (enumNames android_LogPriority)[4]? = some "ANDROID_LOG_INFO" ∧
    valueOf android_LogPriority "ANDROID_LOG_INFO" = some ((4 : Nat) : Int) :=
  ⟨rfl, android_LogPriority_value_eq_position.2.2.2.2.2.2.2.2.2.1 4 "ANDROID_LOG_INFO" rfl⟩

/-- C3: `ANDROID_LOG_SILENT` is the last declared constant and the highest-valued
one: every constant has a value at most that of `ANDROID_LOG_SILENT`, and only
`ANDROID_LOG_SILENT` itself reaches it. -/
theorem ANDROID_LOG_SILENT_last_and_highest :
    (enumNames android_LogPriority).getLast? = some "ANDROID_LOG_SILENT" ∧
    (enumValues android_LogPriority).getLast? = some ("ANDROID_LOG_SILENT", 8) ∧
    (∀ s ∈ enumValues android_LogPriority, s.1 = "ANDROID_LOG_SILENT" →
      ∀ c ∈ enumValues android_LogPriority,
        c.2 ≤ s.2 ∧ (c.2 = s.2 → c.1 = "ANDROID_LOG_SILENT")) := by
  refine ⟨rfl, rfl, ?_⟩
  decide

/-- Instance of C3: `ANDROID_LOG_FATAL` (7) is strictly below `ANDROID_LOG_SILENT` (8). -/
theorem ANDROID_LOG_SILENT_last_and_highest_witness :
    ("ANDROID_LOG_SILENT", (8 : Int)) ∈ enumValues android_LogPriority ∧
    ("ANDROID_LOG_FATAL", (7 : Int)) ∈ enumValues android_LogPriority ∧
    ((7 : Int) ≤ 8 ∧ ((7 : Int) = 8 → "ANDROID_LOG_FATAL" = "ANDROID_LOG_SILENT")) :=
  ⟨by decide, by decide,
    ANDROID_LOG_SILENT_last_and_highest.2.2 ("ANDROID_LOG_SILENT", 8) (by decide) rfl
      ("ANDROID_LOG_FATAL", 7) (by decide)⟩

/-- C4: the values of `android_LogPriority` are distinct and ordered: two constants
with the same value are the same constant, a constant declared before another has
the strictly smaller value, and VERBOSE < DEBUG < INFO < WARN < ERROR < FATAL holds
for the values. -/
theorem android_LogPriority_values_strictly_increasing :
    (∀ a ∈ enumValues android_LogPriority, ∀ b ∈ enumValues android_LogPriority,
      a.2 = b.2 → a = b) ∧
    (∀ (i j : Nat) (a b : String × Int), i < j →
      (enumValues android_LogPriority)[i]? = some a →
      (enumValues android_LogPriority)[j]? = some b → a.2 < b.2) ∧
    (∃ v d n w e f : Int,
      valueOf android_LogPriority "ANDROID_LOG_VERBOSE" = some v ∧
      valueOf android_LogPriority "ANDROID_LOG_DEBUG" = some d ∧
      valueOf android_LogPriority "ANDROID_LOG_INFO" = some n ∧
      valueOf android_LogPriority "ANDROID_LOG_WARN" = some w ∧
      valueOf android_LogPriority "ANDROID_LOG_ERROR" = some e ∧
      valueOf android_LogPriority "ANDROID_LOG_FATAL" = some f ∧
      v < d ∧ d < n ∧ n < w ∧ w < e ∧ e < f) := by
  refine ⟨by decide, ?_, ⟨2, 3, 4, 5, 6, 7, rfl, rfl, rfl, rfl, rfl, rfl, by decide⟩⟩
  intro i j a b hij ha hb
  have hj : j < 9 := lt_nine_of_getElem? j b hb
  rw [enumValues_android_LogPriority] at ha hb
  interval_cases j <;> interval_cases i <;>
    simp only [List.getElem?_cons_succ, List.getElem?_cons_zero, Option.some.injEq] at ha hb <;>
    subst ha <;> subst hb <;> decide

/-- Instance of C4: `ANDROID_LOG_DEFAULT` (position 1) is below `ANDROID_LOG_ERROR`
(position 6). -/
theorem android_LogPriority_values_strictly_increasing_witness :
    (enumValues android_LogPriority)[1]? = some ("ANDROID_LOG_DEFAULT", 1) ∧
    (enumValues android_LogPriority)[6]? = some ("ANDROID_LOG_ERROR", 6) ∧
    (1 : Int) < 6 :=
  ⟨rfl, rfl, android_LogPriority_values_strictly_increasing.2.1 1 6
    ("ANDROID_LOG_DEFAULT", 1) ("ANDROID_LOG_ERROR", 6) (by decide) rfl rfl⟩

/-- C6, as the header has it: the enumeration `android_LogPriority` consists of nine
named integer constants, with nine different names. -/
theorem android_LogPriority_nine_constants :
    (enumValues android_LogPriority).length = 9 ∧
    ((enumValues android_LogPriority).map Prod.fst).Nodup := by
  constructor
  · rfl
  · decide

/-- C6 as stated fails: the number of constants of `android_LogPriority` is not eight. -/
theorem android_LogPriority_not_eight_constants :
    ¬ (enumValues android_LogPriority).length = 8 := by
  decide

/-- C8: the values of `android_LogPriority` are exactly the integers 0 to 8, each
the value of one constant only; decoding a value in 0..8 and encoding the result
gives the value back, and encoding a constant and decoding the result gives the
constant back. -/
theorem android_LogPriority_values_contiguous :
    (∀ n : Int, (∃ c ∈ enumValues android_LogPriority, c.2 = n) ↔ (0 ≤ n ∧ n ≤ 8)) ∧
    (∀ n : Int, 0 ≤ n → n ≤ 8 → ∃! c, c ∈ enumValues android_LogPriority ∧ c.2 = n) ∧
    (∀ n : Int, 0 ≤ n → n ≤ 8 →
      ∃ name, constantOf android_LogPriority n = some name ∧
        valueOf android_LogPriority name = some n) ∧
    (∀ name ∈ enumNames android_LogPriority,
      ∃ v, valueOf android_LogPriority name = some v ∧
        constantOf android_LogPriority v = some name) := by
  refine ⟨?_, ?_, ?_, ?_⟩
  · intro n
    constructor
    · rintro ⟨c, hc, rfl⟩
      revert c
      decide
    · rintro ⟨h0, h8⟩
      interval_cases n
      · exact ⟨("ANDROID_LOG_UNKNOWN", 0), by decide, rfl⟩
      · exact ⟨("ANDROID_LOG_DEFAULT", 1), by decide, rfl⟩
      · exact ⟨("ANDROID_LOG_VERBOSE", 2), by decide, rfl⟩
      · exact ⟨("ANDROID_LOG_DEBUG", 3), by decide, rfl⟩
      · exact ⟨("ANDROID_LOG_INFO", 4), by decide, rfl⟩
      · exact ⟨("ANDROID_LOG_WARN", 5), by decide, rfl⟩
      · exact ⟨("ANDROID_LOG_ERROR", 6), by decide, rfl⟩
      · exact ⟨("ANDROID_LOG_FATAL", 7), by decide, rfl⟩
      · exact ⟨("ANDROID_LOG_SILENT", 8), by decide, rfl⟩
  · intro n h0 h8
    have huniq : ∀ a ∈ enumValues android_LogPriority,
        ∀ b ∈ enumValues android_LogPriority, a.2 = b.2 → a = b := by decide
    have hex : ∃ c ∈ enumValues android_LogPriority, c.2 = n := by
      interval_cases n
      · exact ⟨("ANDROID_LOG_UNKNOWN", 0), by decide, rfl⟩
      · exact ⟨("ANDROID_LOG_DEFAULT", 1), by decide, rfl⟩
      · exact ⟨("ANDROID_LOG_VERBOSE", 2), by decide, rfl⟩
      · exact ⟨("ANDROID_LOG_DEBUG", 3), by decide, rfl⟩
      · exact ⟨("ANDROID_LOG_INFO", 4), by decide, rfl⟩
      · exact ⟨("ANDROID_LOG_WARN", 5), by decide, rfl⟩
      · exact ⟨("ANDROID_LOG_ERROR", 6), by decide, rfl⟩
      · exact ⟨("ANDROID_LOG_FATAL", 7), by decide, rfl⟩
      · exact ⟨("ANDROID_LOG_SILENT", 8), by decide, rfl⟩
    obtain ⟨c, hc, hcn⟩ := hex
    exact ⟨c, ⟨hc, hcn⟩, fun c' hc' => huniq c' hc'.1 c hc (hc'.2.trans hcn.symm)⟩
  · intro n h0 h8
    interval_cases n <;> exact ⟨_, rfl, rfl⟩
  · intro name hname
    simp only [enumNames, android_LogPriority, List.map, List.mem_cons, List.mem_singleton,
      List.mem_nil_iff, or_false] at hname
    rcases hname with h | h | h | h | h | h | h | h | h <;> subst h
    · exact ⟨0, rfl, rfl⟩
    · exact ⟨1, rfl, rfl⟩
    · exact ⟨2, rfl, rfl⟩
    · exact ⟨3, rfl, rfl⟩
    · exact ⟨4, rfl, rfl⟩
    · exact ⟨5, rfl, rfl⟩
    · exact ⟨6, rfl, rfl⟩
    · exact ⟨7, rfl, rfl⟩
    · exact ⟨8, rfl, rfl⟩

/-- Instance of C8 at the value 5: some constant decodes from 5 and encodes back to 5. -/
theorem android_LogPriority_values_contiguous_witness :
    (0 : Int) ≤ 5 ∧ (5 : Int) ≤ 8 ∧
    ∃ name, constantOf android_LogPriority 5 = some name ∧
      valueOf android_LogPriority name = some 5 :=
  ⟨by decide, by decide,
    android_LogPriority_values_contiguous.2.2.1 5 (by decide) (by decide)⟩

/-- C9: only the first enumerator of `android_LogPriority` is written with an
initialiser, and it is `= 0`; every later enumerator has none, and the value of each
constant is the value of the constant declared just before it plus one. -/
theorem android_LogPriority_only_first_initialised :
    android_LogPriority.enumerators.map Enumerator.init = some 0 :: List.replicate 8 none ∧
    (∀ (i : Nat) (e : Enumerator), android_LogPriority.enumerators[i]? = some e →
      (e.init.isSome = true ↔ i = 0)) ∧
    (∀ (i : Nat) (a b : String × Int),
      (enumValues android_LogPriority)[i]? = some a →
      (enumValues android_LogPriority)[i + 1]? = some b → b.2 = a.2 + 1) := by
  have hinit : ∀ (i : Nat) (e : Enumerator), android_LogPriority.enumerators[i]? = some e →
      (e.init.isSome = true ↔ i = 0) := by
    intro i e h
    have hi : i < 9 := by
      by_contra hi
      rw [List.getElem?_eq_none (by simp [android_LogPriority]; omega)] at h
      cases h
    interval_cases i <;>
      simp only [android_LogPriority, List.getElem?_cons_succ, List.getElem?_cons_zero,
        Option.some.injEq] at h <;> subst h <;> decide
  refine ⟨rfl, hinit, ?_⟩
  intro i a b ha hb
  have hlen : i + 1 < android_LogPriority.enumerators.length := by
    have := lt_nine_of_getElem? (i + 1) b hb
    simpa [android_LogPriority] using this
  obtain ⟨e, he⟩ : ∃ e, android_LogPriority.enumerators[i + 1]? = some e :=
    ⟨_, List.getElem?_eq_getElem hlen⟩
  have hnone : e.init = none := by
    have h := hinit (i + 1) e he
    cases hv : e.init with
    | none => rfl
    | some v => simp [hv] at h
  exact enumValuesFrom_succ_of_init_none android_LogPriority.enumerators 0 i e a b
    he hnone ha hb

/-- Instance of C9 at positions 2 and 3: `ANDROID_LOG_DEBUG` is `ANDROID_LOG_VERBOSE`
plus one. -/
theorem android_LogPriority_only_first_initialised_witness :
    (enumValues android_LogPriority)[2]? = some ("ANDROID_LOG_VERBOSE", 2) ∧
    (enumValues android_LogPriority)[2 + 1]? = some ("ANDROID_LOG_DEBUG", 3) ∧
    (3 : Int) = 2 + 1 :=
  ⟨rfl, rfl, android_LogPriority_only_first_initialised.2.2 2
    ("ANDROID_LOG_VERBOSE", 2) ("ANDROID_LOG_DEBUG", 3) rfl rfl⟩

/-! ## The prototype of `__android_log_print` -/

/-- C5: `__android_log_print` has exactly three fixed parameters `int prio`,
`const char* tag`, `const char* fmt` in that order, then a variadic list; it returns
`int`; its only attribute is `format(printf, 3, 4)`, whose format-string index 3
designates the third parameter `fmt` and whose first-to-check index 4 is the number
of fixed parameters plus one. -/
theorem __android_log_print_signature :
    __android_log_print.params.length = 3 ∧
    __android_log_print.params.map Param.name = ["prio", "tag", "fmt"] ∧
    __android_log_print.params.map Param.type =
      [CType.int, CType.pointer (CType.const CType.char),
       CType.pointer (CType.const CType.char)] ∧
    __android_log_print.variadic = true ∧
    __android_log_print.returnType = CType.int ∧
    __android_log_print.attributes = [⟨"printf", 3, 4⟩] ∧
    (∀ a ∈ __android_log_print.attributes,
      a.archetype = "printf" ∧ a.stringIndex = 3 ∧ a.firstToCheck = 4 ∧
      paramAt __android_log_print a.stringIndex =
        some ⟨CType.pointer (CType.const CType.char), "fmt"⟩ ∧
      __android_log_print.params.getLast? = paramAt __android_log_print a.stringIndex ∧
      a.firstToCheck = __android_log_print.params.length + 1) := by
  refine ⟨rfl, rfl, rfl, rfl, rfl, rfl, ?_⟩
  decide

/-- Instance of C5 at the attribute written in the header. -/
theorem __android_log_print_signature_witness :
    (⟨"printf", 3, 4⟩ : FormatAttr) ∈ __android_log_print.attributes ∧
    paramAt __android_log_print 3 = some ⟨CType.pointer (CType.const CType.char), "fmt"⟩ ∧
    4 = __android_log_print.params.length + 1 :=
  ⟨by decide,
    (__android_log_print_signature.2.2.2.2.2.2 ⟨"printf", 3, 4⟩ (by decide)).2.2.2.1,
    (__android_log_print_signature.2.2.2.2.2.2 ⟨"printf", 3, 4⟩ (by decide)).2.2.2.2.2⟩

/-- C7: `__android_log_print` is a declaration only, a signature without a body, and
it is the only function that the header declares or defines. -/
theorem __android_log_print_declaration_only :
    __android_log_print.body = none ∧
    log_h.functions = [__android_log_print] ∧
    log_h.functions.length = 1 ∧
    (∀ f ∈ log_h.functions, f.name = "__android_log_print" ∧ f.body = none) := by
  refine ⟨rfl, rfl, rfl, ?_⟩
  decide

/-- Instance of C7 at the one function of the header. -/
theorem __android_log_print_declaration_only_witness :
    __android_log_print ∈ log_h.functions ∧
    __android_log_print.name = "__android_log_print" ∧ __android_log_print.body = none :=
  ⟨by decide, __android_log_print_declaration_only.2.2.2 __android_log_print (by decide)⟩

end LogHeader
